import Mathlib

/-!
Verification of the Zimmeter session-tracking engine
(src/server/src/routes_v2.ts) against its specification.

Timestamps are modelled as `Int` milliseconds since the epoch, exactly as
JavaScript `Date.getTime()` exposes them.  JavaScript's
`Math.floor((a - b) / 1000)` on such integers is `Int.fdiv (a - b) 1000`
(floor division), and `Math.ceil` over a nonnegative integer quotient is
`(a + b - 1) / b` on `Nat`.  Database records become Lean structures,
Prisma queries become `List.find?` / `List.map` / `List.filter` over the
in-memory table, and each Express handler becomes a total function
returning the new database state together with `Except ApiError result`
(an error response writes nothing, so the state component is returned
unchanged on the error paths, mirroring the handlers' early returns).
-/

/-- Roles of the `User` table (`Role` enum in the Prisma schema). -/
inductive Role where
  | ADMIN
  | USER
deriving DecidableEq, Repr

/-- Category kind (`CategoryType` enum): system-wide or user-created. -/
inductive CatType where
  | SYSTEM
  | CUSTOM
deriving DecidableEq, Repr

/-- Error kinds produced by the route handlers (each corresponds to one
early-return response in routes_v2.ts). -/
inductive ApiError where
  | missingParams
  | categoryNotFound
  | noActiveSession
  | invalidTime
  | notFound
  | forbidden
deriving DecidableEq, Repr

/-- A row of the `WorkLog` table (a SessionEntry of the spec). -/
structure WorkLog where
  id : Nat
  userId : Nat
  categoryId : Option Nat
  categoryNameSnapshot : String
  startTime : Int
  endTime : Option Int
  duration : Option Int
  isManual : Bool
  isEdited : Bool
deriving DecidableEq, Repr

/-- A row of the `Category` table (display-color fields and `defaultList`
are carried verbatim; they never influence the engine logic). -/
structure Category where
  id : Nat
  name : String
  ctype : CatType
  createdById : Nat
  priority : Int
  bgColor : Option String
  borderColor : Option String
  defaultList : Option String
  isDeleted : Bool
deriving DecidableEq, Repr

/-- The database state visible to the handlers: the `WorkLog` and
`Category` tables plus the autoincrement counter for new log ids. -/
structure Db where
  logs : List WorkLog
  categories : List Category
  nextLogId : Nat
deriving DecidableEq, Repr

/-- Well-formedness of the store: `WorkLog.id` is a primary key
(pairwise distinct) and the autoincrement counter is fresh. -/
def Db.wf (db : Db) : Prop :=
  db.logs.Pairwise (fun a b => a.id ≠ b.id) ∧ ∀ e ∈ db.logs, e.id < db.nextLogId

/-- `prisma.workLog.findFirst({where: {userId, endTime: null}})`:
the entry is open for user `u`. -/
def isOpenFor (u : Nat) (e : WorkLog) : Bool :=
  e.userId == u && e.endTime.isNone

/-- The open entry of a user, if any (first match in table order). -/
def findActiveList (logs : List WorkLog) (u : Nat) : Option WorkLog :=
  logs.find? (isOpenFor u)

/-- Number of open entries a user has. -/
def openCount (u : Nat) (logs : List WorkLog) : Nat :=
  logs.countP (isOpenFor u)

/-- The active-session invariant: at most one open entry per user. -/
def activeInv (db : Db) : Prop :=
  ∀ u, openCount u db.logs ≤ 1

/-- `prisma.workLog.update({where: {id}, data})`: rewrite the row whose
primary key is `i`. -/
def updateLogList (logs : List WorkLog) (i : Nat) (f : WorkLog → WorkLog) :
    List WorkLog :=
  logs.map fun e => if e.id == i then f e else e

/-- Closing an entry at instant `now`:
`endTime = now, duration = Math.floor((now - startTime) / 1000)`. -/
def closeLog (now : Int) (e : WorkLog) : WorkLog :=
  { e with endTime := some now,
           duration := some (Int.fdiv (now - e.startTime) 1000) }

/-- `prisma.category.findUnique({where: {id}})`. -/
def lookupCategory (db : Db) (catId : Nat) : Option Category :=
  db.categories.find? (fun c => c.id == catId)

/-- POST /api/logs/switch: resolve the category (404 if absent), then in
one transaction close the active log, if any, and create the new open
log.  `if (!categoryId)` rejects the falsy id 0 with a 400. -/
def switchSession (db : Db) (userId : Nat) (categoryId : Nat) (now : Int) :
    Db × Except ApiError WorkLog :=
  if categoryId == 0 then (db, .error .missingParams)
  else
    match lookupCategory db categoryId with
    | none => (db, .error .categoryNotFound)
    | some cat =>
      let logs1 :=
        match findActiveList db.logs userId with
        | some activeLog => updateLogList db.logs activeLog.id (closeLog now)
        | none => db.logs
      let newLog : WorkLog :=
        { id := db.nextLogId, userId := userId,
          categoryId := some categoryId,
          categoryNameSnapshot := cat.name,
          startTime := now, endTime := none, duration := none,
          isManual := false, isEdited := false }
      ({ db with logs := logs1 ++ [newLog], nextLogId := db.nextLogId + 1 },
       .ok newLog)

/-- POST /api/logs/stop: close the active log or 404 `No active log`. -/
def stopSession (db : Db) (userId : Nat) (now : Int) :
    Db × Except ApiError WorkLog :=
  match findActiveList db.logs userId with
  | none => (db, .error .noActiveSession)
  | some activeLog =>
    ({ db with logs := updateLogList db.logs activeLog.id (closeLog now) },
     .ok (closeLog now activeLog))

/-- POST /api/logs/manual: after the missing-parameter check and the
`now <= start` time check, resolve the category and append a closed entry
with `endTime = start`, `duration = 0`, `isManual = true`. -/
def addManualEntry (db : Db) (userId : Nat) (categoryId : Nat)
    (start : Int) (now : Int) : Db × Except ApiError WorkLog :=
  if categoryId == 0 then (db, .error .missingParams)
  else if now ≤ start then (db, .error .invalidTime)
  else
    match lookupCategory db categoryId with
    | none => (db, .error .categoryNotFound)
    | some cat =>
      let newLog : WorkLog :=
        { id := db.nextLogId, userId := userId,
          categoryId := some categoryId,
          categoryNameSnapshot := cat.name,
          startTime := start, endTime := some start, duration := some 0,
          isManual := true, isEdited := false }
      ({ db with logs := db.logs ++ [newLog], nextLogId := db.nextLogId + 1 },
       .ok newLog)

/-- The field update performed by PATCH /api/logs/:id. -/
def applyEdit (categoryId : Nat) (snapshot : String) (e : WorkLog) : WorkLog :=
  { e with categoryId := some categoryId,
           categoryNameSnapshot := snapshot,
           isEdited := true }

/-- PATCH /api/logs/:id: find the log (404), check owner-or-admin (403),
resolve the new category (404), then update only the category fields and
the `isEdited` flag. -/
def editEntryCategory (db : Db) (actingId : Nat) (actingRole : Role)
    (logId : Nat) (categoryId : Nat) : Db × Except ApiError WorkLog :=
  match db.logs.find? (fun e => e.id == logId) with
  | none => (db, .error .notFound)
  | some log =>
    if log.userId ≠ actingId ∧ actingRole ≠ Role.ADMIN then
      (db, .error .forbidden)
    else
      match lookupCategory db categoryId with
      | none => (db, .error .categoryNotFound)
      | some cat =>
        ({ db with logs := updateLogList db.logs logId
                      (applyEdit categoryId cat.name) },
         .ok (applyEdit categoryId cat.name log))

/-- DELETE /api/logs/:id: find the log (404), check owner-or-admin (403),
then remove the row. -/
def deleteEntry (db : Db) (actingId : Nat) (actingRole : Role)
    (logId : Nat) : Db × Except ApiError Unit :=
  match db.logs.find? (fun e => e.id == logId) with
  | none => (db, .error .notFound)
  | some log =>
    if log.userId ≠ actingId ∧ actingRole ≠ Role.ADMIN then
      (db, .error .forbidden)
    else
      ({ db with logs := db.logs.filter (fun e => !(e.id == logId)) },
       .ok ())

/-- The optional fields of the PUT /api/categories/:id request body;
`none` models an `undefined` field, which the handler leaves untouched. -/
structure CategoryUpdate where
  name : Option String
  priority : Option Int
  bgColor : Option String
  borderColor : Option String
  defaultList : Option String
deriving Repr

/-- PUT /api/categories/:id: find the category (404), permission checks
(admin for SYSTEM, owner for CUSTOM), then update exactly the provided
fields of the category row.  The `WorkLog` table is never touched. -/
def updateCategory (db : Db) (actingId : Nat) (actingRole : Role)
    (catId : Nat) (upd : CategoryUpdate) : Db × Except ApiError Category :=
  match lookupCategory db catId with
  | none => (db, .error .categoryNotFound)
  | some cat =>
    if cat.ctype = CatType.SYSTEM ∧ actingRole ≠ Role.ADMIN then
      (db, .error .forbidden)
    else if cat.ctype = CatType.CUSTOM ∧ cat.createdById ≠ actingId then
      (db, .error .forbidden)
    else
      let cat' : Category :=
        { cat with name := upd.name.getD cat.name,
                   priority := upd.priority.getD cat.priority,
                   bgColor := match upd.bgColor with
                              | some v => some v
                              | none => cat.bgColor,
                   borderColor := match upd.borderColor with
                                  | some v => some v
                                  | none => cat.borderColor,
                   defaultList := match upd.defaultList with
                                  | some v => some v
                                  | none => cat.defaultList }
      ({ db with categories :=
           db.categories.map fun c => if c.id == catId then cat' else c },
       .ok cat')

/-- DELETE /api/categories/:id: find the category (404), same permission
checks, then logically delete it (`isDeleted = true`).  The `WorkLog`
table is never touched. -/
def deleteCategory (db : Db) (actingId : Nat) (actingRole : Role)
    (catId : Nat) : Db × Except ApiError Category :=
  match lookupCategory db catId with
  | none => (db, .error .categoryNotFound)
  | some cat =>
    if cat.ctype = CatType.SYSTEM ∧ actingRole ≠ Role.ADMIN then
      (db, .error .forbidden)
    else if cat.ctype = CatType.CUSTOM ∧ cat.createdById ≠ actingId then
      (db, .error .forbidden)
    else
      let cat' : Category := { cat with isDeleted := true }
      ({ db with categories :=
           db.categories.map fun c => if c.id == catId then cat' else c },
       .ok cat')

/-- Milliseconds per day, written `1000 * 60 * 60 * 24` in the source. -/
def MS_PER_DAY : Nat := 1000 * 60 * 60 * 24

/-- Bucket granularities of GET /api/logs/stats. -/
inductive Granularity where
  | day
  | week
  | month
  | year
deriving DecidableEq, Repr

/-- Custom-mode granularity selection of GET /api/logs/stats:
`diffTime = Math.abs(rangeEnd - rangeStart)`,
`diffDays = Math.ceil(diffTime / (1000*60*60*24))`, then
`diffDays <= 31` selects day buckets, `diffDays <= 366` month buckets,
anything longer year buckets. -/
def statsCustomBucketMode (rangeStart rangeEnd : Int) : Granularity :=
  let diffTime : Nat := (rangeEnd - rangeStart).natAbs
  let diffDays : Nat := (diffTime + MS_PER_DAY - 1) / MS_PER_DAY
  if diffDays ≤ 31 then .day
  else if diffDays ≤ 366 then .month
  else .year

/-- One step of the GET /api/logs/history reconstruction: given the entry
and the chronologically next entry of the fetched list (if any), produce
the display entry.  With a next entry, `endTime` and `duration` are
overridden by the gap to the next start; for the final entry a stored
`endTime` is kept (recomputing `duration` only when it is absent in the
database), and an entry with no stored `endTime` is returned as is. -/
def reconstructEntry (log : WorkLog) (next : Option WorkLog) : WorkLog :=
  match next with
  | some nextLog =>
    { log with endTime := some nextLog.startTime,
               duration :=
                 some (Int.fdiv (nextLog.startTime - log.startTime) 1000) }
  | none =>
    match log.endTime with
    | some e =>
      { log with duration :=
                   some (log.duration.getD (Int.fdiv (e - log.startTime) 1000)) }
    | none => log

/-- GET /api/logs/history: `logs.map((log, index) => ...)` pairing each
entry with `logs[index + 1]` (the route then reverses the list for
display; the claims concern the per-index reconstruction). -/
def reconstructHistory : List WorkLog → List WorkLog
  | [] => []
  | [x] => [reconstructEntry x none]
  | x :: y :: rest => reconstructEntry x (some y) :: reconstructHistory (y :: rest)

/-- Duration accumulated in the GET /api/logs/stats loop:
`log.duration ?? (log.endTime ? Math.floor((endTime - startTime)/1000) : 0)`. -/
def entryDurationSec (log : WorkLog) : Int :=
  log.duration.getD
    (match log.endTime with
     | some e => Int.fdiv (e - log.startTime) 1000
     | none => 0)

/-- Bucket assignment of the stats loop for the millisecond-arithmetic
modes (day and week; the month and year modes decompose calendar dates
and are not needed by any claim): the day index is
`Math.floor((start - rangeStart) / DAY_MS)`, weeks divide it by 7, and an
out-of-range index yields no bucket. -/
def bucketIndexOf (mode : Granularity) (rangeStart : Int) (bucketCount : Nat)
    (start : Int) : Option Nat :=
  match mode with
  | .day =>
    let diffDays := Int.fdiv (start - rangeStart) (MS_PER_DAY : Int)
    if 0 ≤ diffDays ∧ diffDays < bucketCount then some diffDays.toNat else none
  | .week =>
    let diffDays := Int.fdiv (start - rangeStart) (MS_PER_DAY : Int)
    let diffWeeks := Int.fdiv diffDays 7
    if 0 ≤ diffWeeks ∧ diffWeeks < bucketCount then some diffWeeks.toNat
    else none
  | .month => none
  | .year => none

/-- Add `v` to position `i` of the bucket totals. -/
def addAt (l : List Int) (i : Nat) (v : Int) : List Int :=
  match l, i with
  | [], _ => []
  | x :: rest, 0 => (x + v) :: rest
  | x :: rest, n + 1 => x :: addAt rest n v

/-- `byCategory[catName] = (byCategory[catName] || 0) + durationSec` over
a JavaScript object: update the existing key in place or append it. -/
def upsertAdd : List (String × Int) → String → Int → List (String × Int)
  | [], k, v => [(k, v)]
  | (k', v') :: rest, k, v =>
    if k' = k then (k', v' + v) :: rest else (k', v') :: upsertAdd rest k v

/-- The accumulation loop of GET /api/logs/stats over the fetched logs:
`if (!durationSec) continue;` skips only a zero duration, an in-range
bucket receives the duration, and the category breakdown keyed by
`categoryNameSnapshot || 'Unknown'` always receives it. -/
def statsLoop (mode : Granularity) (rangeStart : Int) :
    List WorkLog → List Int → List (String × Int) →
    List Int × List (String × Int)
  | [], buckets, byCategory => (buckets, byCategory)
  | log :: rest, buckets, byCategory =>
    let durationSec := entryDurationSec log
    if durationSec = 0 then statsLoop mode rangeStart rest buckets byCategory
    else
      let buckets' :=
        match bucketIndexOf mode rangeStart buckets.length log.startTime with
        | some i => addAt buckets i durationSec
        | none => buckets
      let catName :=
        if log.categoryNameSnapshot = "" then "Unknown"
        else log.categoryNameSnapshot
      statsLoop mode rangeStart rest buckets' (upsertAdd byCategory catName durationSec)

/-- Sum of the category-breakdown totals. -/
def sumValues (m : List (String × Int)) : Int :=
  (m.map Prod.snd).sum

theorem countP_map_upd {α : Type} (p sel : α → Bool) (f : α → α) :
    ∀ l : List α, (∀ e ∈ l, sel e = true → p (f e) = false) →
      (l.map fun e => if sel e then f e else e).countP p
        + l.countP (fun e => p e && sel e) = l.countP p := by
  intro l
  induction l with
  | nil => simp
  | cons x xs ih =>
    intro hf
    have hx := hf x (by simp)
    have ihx := ih (fun e he hsel => hf e (by simp [he]) hsel)
    by_cases hs : sel x = true
    · rw [List.map_cons, if_pos hs, List.countP_cons, List.countP_cons,
        List.countP_cons, hx hs, hs, Bool.and_true]
      simp only [Bool.false_eq_true, if_false]
      omega
    · have hs' : sel x = false := by
        cases h : sel x
        · rfl
        · exact absurd h hs
      simp only [List.map_cons, hs', List.countP_cons, Bool.and_false,
        if_false]
      simp only [Bool.false_eq_true, if_false]
      omega

theorem countP_map_congr_upd {α : Type} (p sel : α → Bool) (f : α → α) :
    ∀ l : List α, (∀ e ∈ l, sel e = true → p (f e) = p e) →
      (l.map fun e => if sel e then f e else e).countP p = l.countP p := by
  intro l
  induction l with
  | nil => simp
  | cons x xs ih =>
    intro hf
    have ihx := ih (fun e he hsel => hf e (by simp [he]) hsel)
    by_cases hs : sel x = true
    · simp only [List.map_cons, hs, if_true, List.countP_cons,
        hf x (by simp) hs, ihx]
    · have hs' : sel x = false := by
        cases h : sel x
        · rfl
        · exact absurd h hs
      simp only [List.map_cons, hs', Bool.false_eq_true, if_false,
        List.countP_cons, ihx]

theorem workLog_eq_of_mem_of_id_eq :
    ∀ l : List WorkLog, l.Pairwise (fun a b => a.id ≠ b.id) →
      ∀ a b : WorkLog, a ∈ l → b ∈ l → a.id = b.id → a = b := by
  intro l
  induction l with
  | nil => intro _ a b ha; cases ha
  | cons x xs ih =>
    intro hp a b ha hb hid
    rw [List.pairwise_cons] at hp
    rcases List.mem_cons.mp ha with rfl | ha'
    · rcases List.mem_cons.mp hb with rfl | hb'
      · rfl
      · exact absurd hid (hp.1 b hb')
    · rcases List.mem_cons.mp hb with rfl | hb'
      · exact absurd hid.symm (hp.1 a ha')
      · exact ih hp.2 a b ha' hb' hid

theorem countP_and_id_le_one (q : WorkLog → Bool) (i : Nat) :
    ∀ l : List WorkLog, l.Pairwise (fun a b => a.id ≠ b.id) →
      l.countP (fun e => q e && e.id == i) ≤ 1 := by
  intro l
  induction l with
  | nil => simp
  | cons x xs ih =>
    intro hp
    rw [List.pairwise_cons] at hp
    by_cases hx : (x.id == i) = true
    · have hxs : xs.countP (fun e => q e && e.id == i) = 0 := by
        rw [List.countP_eq_zero]
        intro e he
        have hxid : x.id = i := by simpa using hx
        have : e.id ≠ i := fun hcontra =>
          (hp.1 e he) (hxid.trans hcontra.symm)
        simp [this]
      rw [List.countP_cons, hxs]
      split <;> omega
    · rw [List.countP_cons]
      have : (q x && x.id == i) = false := by
        cases h : (x.id == i)
        · simp
        · exact absurd h hx
      rw [this]
      simp only [Bool.false_eq_true, if_false]
      have := ih hp.2
      omega

theorem one_le_countP_and_id (p : WorkLog → Bool) (l : List WorkLog)
    (a : WorkLog) (hfind : l.find? p = some a) :
    1 ≤ l.countP (fun e => p e && e.id == a.id) := by
  have ha := List.mem_of_find?_eq_some hfind
  have hpa := List.find?_some hfind
  have : 0 < l.countP (fun e => p e && e.id == a.id) :=
    List.countP_pos_iff.mpr ⟨a, ha, by simp [hpa]⟩
  omega

theorem isOpenFor_closeLog (u : Nat) (now : Int) (e : WorkLog) :
    isOpenFor u (closeLog now e) = false := by
  simp [isOpenFor, closeLog]

theorem openCount_close_active (l : List WorkLog) (u : Nat) (a : WorkLog)
    (now : Int) (huniq : l.Pairwise fun x y => x.id ≠ y.id)
    (hfind : l.find? (isOpenFor u) = some a) :
    (updateLogList l a.id (closeLog now)).countP (isOpenFor u) + 1
      = l.countP (isOpenFor u) := by
  have h1 := countP_map_upd (isOpenFor u) (fun e => e.id == a.id)
    (closeLog now) l (fun e _ _ => isOpenFor_closeLog u now e)
  beta_reduce at h1
  have hle := countP_and_id_le_one (isOpenFor u) a.id l huniq
  have hge := one_le_countP_and_id (isOpenFor u) l a hfind
  unfold updateLogList
  omega

theorem openCount_close_other (l : List WorkLog) (u u' : Nat) (a : WorkLog)
    (now : Int) (huniq : l.Pairwise fun x y => x.id ≠ y.id)
    (hfind : l.find? (isOpenFor u) = some a) (hne : u' ≠ u) :
    (updateLogList l a.id (closeLog now)).countP (isOpenFor u')
      = l.countP (isOpenFor u') := by
  have ha := List.mem_of_find?_eq_some hfind
  have hpa := List.find?_some hfind
  have hau : a.userId = u := by
    simp [isOpenFor] at hpa
    exact hpa.1
  unfold updateLogList
  apply countP_map_congr_upd
  intro e he hsel
  have heq : e = a :=
    workLog_eq_of_mem_of_id_eq l huniq e a he ha (by simpa using hsel)
  subst heq
  simp [isOpenFor, closeLog, hau, Ne.symm hne]

theorem openCount_eq_zero_of_find?_none (l : List WorkLog) (u : Nat)
    (h : l.find? (isOpenFor u) = none) : l.countP (isOpenFor u) = 0 :=
  List.countP_eq_zero.mpr (List.find?_eq_none.mp h)

theorem find?_none_of_openCount_zero (l : List WorkLog) (u : Nat)
    (h : l.countP (isOpenFor u) = 0) : l.find? (isOpenFor u) = none :=
  List.find?_eq_none.mpr (List.countP_eq_zero.mp h)

theorem find?_updateLogList_self (f : WorkLog → WorkLog)
    (hf : ∀ e, (f e).id = e.id) :
    ∀ l : List WorkLog, l.Pairwise (fun x y => x.id ≠ y.id) →
      ∀ a ∈ l, (updateLogList l a.id f).find? (fun e => e.id == a.id)
        = some (f a) := by
  intro l
  induction l with
  | nil => intro _ a ha; cases ha
  | cons x xs ih =>
    intro hp a ha
    rw [List.pairwise_cons] at hp
    unfold updateLogList
    rw [List.map_cons]
    by_cases hx : (x.id == a.id) = true
    · have hxa : x = a := by
        rcases List.mem_cons.mp ha with rfl | ha'
        · rfl
        · exact absurd (by simpa using hx) (hp.1 a ha')
      subst hxa
      rw [if_pos hx]
      rw [List.find?_cons_of_pos]
      simpa using hf x
    · have hx' : (x.id == a.id) = false := by
        cases h : x.id == a.id
        · rfl
        · exact absurd h hx
      have ha' : a ∈ xs := by
        rcases List.mem_cons.mp ha with rfl | h
        · simp at hx'
        · exact h
      rw [if_neg (by simp [hx'])]
      rw [List.find?_cons_of_neg _ (by simp [hx'])]
      simpa [updateLogList] using ih hp.2 a ha'

theorem mem_updateLogList_of_ne (l : List WorkLog) (i : Nat)
    (f : WorkLog → WorkLog) (x : WorkLog) (hx : x ∈ l) (hne : x.id ≠ i) :
    x ∈ updateLogList l i f := by
  unfold updateLogList
  have h := List.mem_map_of_mem (fun e => if e.id == i then f e else e) hx
  simpa [hne] using h

theorem find?_append_some {p : WorkLog → Bool} {l₁ l₂ : List WorkLog}
    {b : WorkLog} (h : l₁.find? p = some b) :
    (l₁ ++ l₂).find? p = some b := by
  rw [List.find?_append, h]
  rfl

theorem reconstructHistory_getElem? :
    ∀ (logs : List WorkLog) (i : Nat),
      (reconstructHistory logs)[i]?
        = (logs[i]?).map fun e => reconstructEntry e logs[i + 1]? := by
  intro logs
  induction logs with
  | nil => intro i; simp [reconstructHistory]
  | cons x xs ih =>
    intro i
    cases xs with
    | nil =>
      cases i with
      | zero => simp [reconstructHistory]
      | succ j => simp [reconstructHistory]
    | cons y rest =>
      cases i with
      | zero => simp [reconstructHistory]
      | succ j =>
        simp only [reconstructHistory, List.getElem?_cons_succ]
        simpa only [List.getElem?_cons_succ] using ih j

/-- C2: for a day's entries sorted by startTime, reconstruction gives
every non-final entry an effective end equal to the next entry's start
and an effective duration equal to the start difference in whole seconds,
overriding any stored endTime and duration; the final entry keeps its
stored endTime and duration, recomputing the duration from the two
timestamps only when no duration is stored; and a final entry with no
stored endTime is returned unchanged — hence with no duration when none
is stored — and is never measured against the current time
(`reconstructHistory` takes no clock input at all). -/
theorem C2_history_reconstruction :
    (∀ (logs : List WorkLog) (i : Nat) (cur next : WorkLog),
       logs[i]? = some cur → logs[i + 1]? = some next →
       (reconstructHistory logs)[i]?
         = some { cur with
                    endTime := some next.startTime,
                    duration :=
                      some (Int.fdiv (next.startTime - cur.startTime) 1000) }) ∧
    (∀ (logs : List WorkLog) (i : Nat) (cur : WorkLog) (e : Int),
       logs[i]? = some cur → logs[i + 1]? = none → cur.endTime = some e →
       (reconstructHistory logs)[i]?
         = some { cur with
                    duration :=
                      some (cur.duration.getD
                             (Int.fdiv (e - cur.startTime) 1000)) }) ∧
    (∀ (logs : List WorkLog) (i : Nat) (cur : WorkLog),
       logs[i]? = some cur → logs[i + 1]? = none → cur.endTime = none →
       (reconstructHistory logs)[i]? = some cur) := by
  refine ⟨?_, ?_, ?_⟩
  · intro logs i cur next hc hn
    rw [reconstructHistory_getElem?, hc, hn]
    simp [reconstructEntry]
  · intro logs i cur e hc hn he
    rw [reconstructHistory_getElem?, hc, hn]
    simp [reconstructEntry, he]
  · intro logs i cur hc hn he
    rw [reconstructHistory_getElem?, hc, hn]
    simp [reconstructEntry, he]

/-- Day example for the reconstruction claim: a 09:00 entry (stored as
closed after 100 s), a 09:30 manual entry, and an open 10:30 entry,
with times in ms from 09:00. -/
def histE1 : WorkLog :=
  { id := 1, userId := 1, categoryId := some 1, categoryNameSnapshot := "A",
    startTime := 0, endTime := some 100000, duration := some 100,
    isManual := false, isEdited := false }

def histE2 : WorkLog :=
  { id := 2, userId := 1, categoryId := some 1, categoryNameSnapshot := "B",
    startTime := 1800000, endTime := some 1800000, duration := some 0,
    isManual := true, isEdited := false }

def histE3 : WorkLog :=
  { id := 3, userId := 1, categoryId := some 1, categoryNameSnapshot := "C",
    startTime := 5400000, endTime := none, duration := none,
    isManual := false, isEdited := false }

def histExample : List WorkLog := [histE1, histE2, histE3]

theorem C2_history_reconstruction_witness :
    histExample[0]? = some histE1 ∧ histExample[1]? = some histE2 ∧
    histExample[2]? = some histE3 ∧ histExample[3]? = none ∧
    histE3.endTime = none ∧
    (reconstructHistory histExample)[0]?
      = some { histE1 with endTime := some 1800000, duration := some 1800 } ∧
    (reconstructHistory histExample)[2]? = some histE3 := by
  refine ⟨rfl, rfl, rfl, rfl, rfl, ?_, ?_⟩
  · have h := C2_history_reconstruction.1 histExample 0 histE1 histE2 rfl rfl
    rw [h]
    decide
  · exact C2_history_reconstruction.2.2 histExample 2 histE3 rfl rfl rfl

/-- C6: renaming (PUT /api/categories/:id) or logically deleting
(DELETE /api/categories/:id) a category updates only the `Category` table
and leaves the `WorkLog` table — in particular every entry's
`categoryNameSnapshot`, which is written only at entry creation and by
the explicit edit route — exactly as it was, on every success and
failure path. -/
theorem C6_snapshot_immutability :
    ∀ (db : Db) (actingId : Nat) (actingRole : Role) (catId : Nat)
      (upd : CategoryUpdate),
      (updateCategory db actingId actingRole catId upd).1.logs = db.logs ∧
      (deleteCategory db actingId actingRole catId).1.logs = db.logs := by
  intro db actingId actingRole catId upd
  constructor
  · unfold updateCategory
    cases lookupCategory db catId with
    | none => rfl
    | some cat =>
      dsimp only
      split_ifs <;> rfl
  · unfold deleteCategory
    cases lookupCategory db catId with
    | none => rfl
    | some cat =>
      dsimp only
      split_ifs <;> rfl

/-- C8: in custom mode, GET /api/logs/stats derives the bucket
granularity from the range length alone; for a range spanning `n`
calendar days (range start at a day's 00:00:00.000, range end at the last
day's 23:59:59.999, as the handler normalises them), at most 31 days
gives daily buckets, 32 to 366 days monthly buckets, and more than 366
days yearly buckets. -/
theorem C8_custom_granularity (startDay : Int) (n : Nat) (hn : 1 ≤ n) :
    (n ≤ 31 →
       statsCustomBucketMode (startDay * (MS_PER_DAY : Int))
         (startDay * (MS_PER_DAY : Int) + n * (MS_PER_DAY : Int) - 1)
         = Granularity.day) ∧
    (32 ≤ n → n ≤ 366 →
       statsCustomBucketMode (startDay * (MS_PER_DAY : Int))
         (startDay * (MS_PER_DAY : Int) + n * (MS_PER_DAY : Int) - 1)
         = Granularity.month) ∧
    (367 ≤ n →
       statsCustomBucketMode (startDay * (MS_PER_DAY : Int))
         (startDay * (MS_PER_DAY : Int) + n * (MS_PER_DAY : Int) - 1)
         = Granularity.year) := by
  have hchar : ∀ rangeStart rangeEnd : Int,
      statsCustomBucketMode rangeStart rangeEnd
        = (if ((rangeEnd - rangeStart).natAbs + MS_PER_DAY - 1) / MS_PER_DAY ≤ 31
           then Granularity.day
           else if ((rangeEnd - rangeStart).natAbs + MS_PER_DAY - 1) / MS_PER_DAY ≤ 366
           then Granularity.month
           else Granularity.year) := fun _ _ => rfl
  have hms : (MS_PER_DAY : Nat) = 86400000 := rfl
  have habs : ((startDay * (MS_PER_DAY : Int) + n * (MS_PER_DAY : Int) - 1)
      - startDay * (MS_PER_DAY : Int)).natAbs = n * 86400000 - 1 := by
    have h1 : (startDay * (MS_PER_DAY : Int) + n * (MS_PER_DAY : Int) - 1)
        - startDay * (MS_PER_DAY : Int) = (n : Int) * 86400000 - 1 := by
      rw [show ((MS_PER_DAY : Nat) : Int) = 86400000 from rfl]
      ring
    rw [h1]
    omega
  have hdiv : (n * 86400000 - 1 + MS_PER_DAY - 1) / MS_PER_DAY = n := by
    rw [hms]
    omega
  refine ⟨?_, ?_, ?_⟩
  · intro h31
    rw [hchar, habs, hdiv]
    simp [h31]
  · intro h32 h366
    rw [hchar, habs, hdiv]
    rw [if_neg (by omega), if_pos h366]
  · intro h367
    rw [hchar, habs, hdiv]
    rw [if_neg (by omega), if_neg (by omega)]

/-- Witness: ranges of 10, 100 and 800 calendar days select daily,
monthly and yearly buckets respectively. -/
theorem C8_custom_granularity_witness :
    (1 ≤ 10 ∧ statsCustomBucketMode 0 (10 * 86400000 - 1) = Granularity.day) ∧
    (32 ≤ 100 ∧ 100 ≤ 366 ∧
      statsCustomBucketMode 0 (100 * 86400000 - 1) = Granularity.month) ∧
    (367 ≤ 800 ∧
      statsCustomBucketMode 0 (800 * 86400000 - 1) = Granularity.year) := by
  refine ⟨⟨by decide, ?_⟩, ⟨by decide, by decide, ?_⟩, ⟨by decide, ?_⟩⟩
  · have h := (C8_custom_granularity 0 10 (by decide)).1 (by decide)
    simpa using h
  · have h := (C8_custom_granularity 0 100 (by decide)).2.1 (by decide) (by decide)
    simpa using h
  · have h := (C8_custom_granularity 0 800 (by decide)).2.2 (by decide)
    simpa using h

theorem sumValues_upsertAdd (k : String) (v : Int) :
    ∀ m : List (String × Int), sumValues (upsertAdd m k v) = sumValues m + v := by
  intro m
  induction m with
  | nil => simp [upsertAdd, sumValues]
  | cons p rest ih =>
    obtain ⟨k', v'⟩ := p
    by_cases h : k' = k
    · simp only [upsertAdd]
      rw [if_pos h]
      simp only [sumValues, List.map_cons, List.sum_cons]
      omega
    · simp only [upsertAdd]
      rw [if_neg h]
      simp only [sumValues, List.map_cons, List.sum_cons]
      simp only [sumValues] at ih
      omega

/-- C9 as amended: in the stats accumulation loop each fetched entry
contributes its stored durationSeconds when present, else
`endTime - startTime` in whole seconds when closed, else nothing (an
entry that is open and has no stored duration is skipped outright, not
estimated); the loop is a total function, so malformed historical data
never raises; but an entry whose contribution is negative (e.g. a stored
`endTime` before `startTime`) is added as that negative value to the
category breakdown — and to its bucket — rather than being treated as
zero; only a contribution of exactly zero is skipped. -/
theorem C9_stats_accumulation_amended :
    (∀ (mode : Granularity) (rangeStart : Int) (logs : List WorkLog)
       (buckets : List Int) (byCategory : List (String × Int)),
       sumValues (statsLoop mode rangeStart logs buckets byCategory).2
         = sumValues byCategory + (logs.map entryDurationSec).sum) ∧
    (∀ (mode : Granularity) (rangeStart : Int) (log : WorkLog)
       (rest : List WorkLog) (buckets : List Int)
       (byCategory : List (String × Int)),
       log.duration = none → log.endTime = none →
       statsLoop mode rangeStart (log :: rest) buckets byCategory
         = statsLoop mode rangeStart rest buckets byCategory) ∧
    (∀ (log : WorkLog) (d : Int), log.duration = some d →
       entryDurationSec log = d) ∧
    (∀ (log : WorkLog) (e : Int), log.duration = none → log.endTime = some e →
       entryDurationSec log = Int.fdiv (e - log.startTime) 1000) := by
  refine ⟨?_, ?_, ?_, ?_⟩
  · intro mode rangeStart logs
    induction logs with
    | nil => intro buckets byCategory; simp [statsLoop]
    | cons log rest ih =>
      intro buckets byCategory
      by_cases h : entryDurationSec log = 0
      · simp only [statsLoop]
        rw [if_pos h, ih buckets byCategory, List.map_cons, List.sum_cons, h]
        omega
      · simp only [statsLoop]
        rw [if_neg h, ih, sumValues_upsertAdd, List.map_cons, List.sum_cons]
        omega
  · intro mode rangeStart log rest buckets byCategory hd he
    have h0 : entryDurationSec log = 0 := by
      simp [entryDurationSec, hd, he]
    simp only [statsLoop]
    rw [if_pos h0]
  · intro log d hd
    simp [entryDurationSec, hd]
  · intro log e hd he
    simp [entryDurationSec, hd, he]

/-- A closed entry of category snapshot "X" whose stored `endTime`
precedes its `startTime` by one minute and whose stored duration is
absent — the malformed legacy data the spec discusses. -/
def negDurLog : WorkLog :=
  { id := 9, userId := 1, categoryId := some 1, categoryNameSnapshot := "X",
    startTime := 60000, endTime := some 0, duration := none,
    isManual := false, isEdited := false }

/-- Counterexample to C9 as stated: on a one-day range containing only
`negDurLog`, the stats loop puts -60 seconds — not the claimed zero —
into both the day bucket and the "X" category total. -/
theorem C9_stats_accumulation_counterexample :
    negDurLog.duration = none ∧ negDurLog.endTime = some 0 ∧
    negDurLog.startTime = 60000 ∧
    statsLoop Granularity.day 0 [negDurLog] [0] [] = ([-60], [("X", -60)]) ∧
    ¬ statsLoop Granularity.day 0 [negDurLog] [0] [] = ([0], [("X", 0)]) := by
  refine ⟨rfl, rfl, rfl, by decide, by decide⟩

/-- An open entry with no stored duration, for the witness. -/
def openLog9 : WorkLog :=
  { id := 10, userId := 1, categoryId := some 1, categoryNameSnapshot := "Y",
    startTime := 0, endTime := none, duration := none,
    isManual := false, isEdited := false }

theorem C9_stats_accumulation_witness :
    openLog9.duration = none ∧ openLog9.endTime = none ∧
    statsLoop Granularity.day 0 [openLog9] [0] []
      = statsLoop Granularity.day 0 [] [0] [] ∧
    negDurLog.duration = none ∧ negDurLog.endTime = some 0 ∧
    entryDurationSec negDurLog = -60 ∧
    sumValues (statsLoop Granularity.day 0 [negDurLog] [0] []).2 = -60 := by
  refine ⟨rfl, rfl, ?_, rfl, rfl, ?_, ?_⟩
  · exact C9_stats_accumulation_amended.2.1 Granularity.day 0 openLog9 []
      [0] [] rfl rfl
  · have h := C9_stats_accumulation_amended.2.2.2 negDurLog 0 rfl rfl
    rw [h]
    decide
  · have h := C9_stats_accumulation_amended.1 Granularity.day 0 [negDurLog]
      [0] []
    rw [h]
    decide

/-- The open entry created by POST /api/logs/switch. -/
def newOpenLog (db : Db) (user categoryId : Nat) (catName : String)
    (now : Int) : WorkLog :=
  { id := db.nextLogId, userId := user, categoryId := some categoryId,
    categoryNameSnapshot := catName, startTime := now, endTime := none,
    duration := none, isManual := false, isEdited := false }

theorem switchSession_ok_eq (db : Db) (user categoryId : Nat) (now : Int)
    (cat : Category) (hcid : (categoryId == 0) = false)
    (hcat : lookupCategory db categoryId = some cat) :
    switchSession db user categoryId now
      = ({ db with
             logs := (match findActiveList db.logs user with
                      | some a => updateLogList db.logs a.id (closeLog now)
                      | none => db.logs)
                     ++ [newOpenLog db user categoryId cat.name now],
             nextLogId := db.nextLogId + 1 },
         .ok (newOpenLog db user categoryId cat.name now)) := by
  unfold switchSession
  rw [hcid]
  simp only [Bool.false_eq_true, if_false, hcat]
  rfl

/-- C3: switchSession at instant `now`, for an existing category,
atomically closes the user's open entry, if any — setting
`endTime = now` and `durationSeconds = Math.floor((now - startTime)/1000)`
on that row — and creates and returns a new entry with
`startTime = now`, `endTime = null`, the target categoryId, and a
`categoryNameSnapshot` resolved from the category's name at call time;
when the category does not exist it fails with CategoryNotFound and the
ledger is unchanged. -/
theorem C3_switch_session (db : Db) (user categoryId : Nat) (now : Int)
    (hwf : db.wf) (hcid : categoryId ≠ 0) :
    (∀ cat, lookupCategory db categoryId = some cat →
       ∃ nl, (switchSession db user categoryId now).2 = .ok nl ∧
         nl.startTime = now ∧ nl.endTime = none ∧ nl.duration = none ∧
         nl.categoryId = some categoryId ∧
         nl.categoryNameSnapshot = cat.name ∧ nl.userId = user ∧
         (switchSession db user categoryId now).1.logs
           = (match findActiveList db.logs user with
              | some a => updateLogList db.logs a.id (closeLog now)
              | none => db.logs) ++ [nl] ∧
         (∀ a, findActiveList db.logs user = some a →
            ((switchSession db user categoryId now).1.logs.find?
                (fun e => e.id == a.id))
              = some (closeLog now a) ∧
            (closeLog now a).endTime = some now ∧
            (closeLog now a).duration
              = some (Int.fdiv (now - a.startTime) 1000))) ∧
    (lookupCategory db categoryId = none →
       switchSession db user categoryId now
         = (db, .error .categoryNotFound)) := by
  have hc0 : (categoryId == 0) = false := by
    simp [hcid]
  constructor
  · intro cat hcat
    have heq := switchSession_ok_eq db user categoryId now cat hc0 hcat
    refine ⟨newOpenLog db user categoryId cat.name now,
      ?_, rfl, rfl, rfl, rfl, rfl, rfl, ?_, ?_⟩
    · rw [heq]
    · rw [heq]
    · intro a ha
      refine ⟨?_, rfl, rfl⟩
      rw [heq]
      dsimp only
      rw [ha]
      have hmem := List.mem_of_find?_eq_some ha
      have hfind := find?_updateLogList_self (closeLog now) (fun e => rfl)
        db.logs hwf.1 a hmem
      exact find?_append_some hfind
  · intro hcat
    unfold switchSession
    rw [hc0]
    simp only [Bool.false_eq_true, if_false, hcat]

/-- Concrete catalog and ledger used by the witnesses. -/
def wCat1 : Category :=
  { id := 1, name := "Meeting", ctype := CatType.SYSTEM, createdById := 1,
    priority := 1, bgColor := none, borderColor := none, defaultList := none,
    isDeleted := false }

def wCat2 : Category :=
  { id := 2, name := "Email", ctype := CatType.SYSTEM, createdById := 1,
    priority := 2, bgColor := none, borderColor := none, defaultList := none,
    isDeleted := false }

def wOpen : WorkLog :=
  { id := 1, userId := 1, categoryId := some 1,
    categoryNameSnapshot := "Meeting", startTime := 1000, endTime := none,
    duration := none, isManual := false, isEdited := false }

def wDb : Db := { logs := [wOpen], categories := [wCat1, wCat2], nextLogId := 2 }

theorem wDb_wf : wDb.wf := by
  constructor
  · simp [wDb]
  · intro e he
    simp [wDb] at he
    rw [he]
    decide

theorem C3_switch_session_witness :
    wDb.wf ∧ (2 : Nat) ≠ 0 ∧ lookupCategory wDb 2 = some wCat2 ∧
    findActiveList wDb.logs 1 = some wOpen ∧
    ∃ nl, (switchSession wDb 1 2 61000).2 = Except.ok nl ∧
      nl.startTime = 61000 ∧ nl.endTime = none ∧
      nl.categoryNameSnapshot = "Email" ∧
      ((switchSession wDb 1 2 61000).1.logs.find? (fun e => e.id == wOpen.id))
        = some (closeLog 61000 wOpen) := by
  refine ⟨wDb_wf, by decide, rfl, rfl, ?_⟩
  obtain ⟨nl, hok, hst, het, hdur, hcat, hsnap, huid, hlogs, hclose⟩ :=
    (C3_switch_session wDb 1 2 61000 wDb_wf (by decide)).1 wCat2 rfl
  exact ⟨nl, hok, hst, het, by rw [hsnap]; rfl, (hclose wOpen rfl).1⟩

/-- The closed entry created by POST /api/logs/manual. -/
def newManualLog (db : Db) (user categoryId : Nat) (catName : String)
    (start : Int) : WorkLog :=
  { id := db.nextLogId, userId := user, categoryId := some categoryId,
    categoryNameSnapshot := catName, startTime := start,
    endTime := some start, duration := some 0, isManual := true,
    isEdited := false }

theorem addManualEntry_invalidTime_eq (db : Db) (user categoryId : Nat)
    (start now : Int) (hc0 : (categoryId == 0) = false)
    (ht : now ≤ start) :
    addManualEntry db user categoryId start now = (db, .error .invalidTime) := by
  unfold addManualEntry
  rw [hc0]
  simp only [Bool.false_eq_true, if_false]
  rw [if_pos ht]

theorem addManualEntry_catNone_eq (db : Db) (user categoryId : Nat)
    (start now : Int) (hc0 : (categoryId == 0) = false)
    (ht : ¬ now ≤ start) (hcat : lookupCategory db categoryId = none) :
    addManualEntry db user categoryId start now
      = (db, .error .categoryNotFound) := by
  unfold addManualEntry
  rw [hc0]
  simp only [Bool.false_eq_true, if_false]
  rw [if_neg ht]
  simp only [hcat]

theorem addManualEntry_ok_eq (db : Db) (user categoryId : Nat)
    (start now : Int) (cat : Category) (hc0 : (categoryId == 0) = false)
    (ht : ¬ now ≤ start) (hcat : lookupCategory db categoryId = some cat) :
    addManualEntry db user categoryId start now
      = ({ db with
             logs := db.logs ++ [newManualLog db user categoryId cat.name start],
             nextLogId := db.nextLogId + 1 },
         .ok (newManualLog db user categoryId cat.name start)) := by
  unfold addManualEntry
  rw [hc0]
  simp only [Bool.false_eq_true, if_false]
  rw [if_neg ht]
  simp only [hcat]
  rfl

/-- C4: addManualEntry creates a closed entry with `endTime = startTime`,
`durationSeconds = 0` and `isManual = true`, appended to the ledger; it
fails with InvalidTime exactly when the requested start is not strictly
before the current instant (`now <= start` in the handler), and with
CategoryNotFound when the start is valid but the category does not
exist; both failures return before any write, leaving the ledger
unchanged. -/
theorem C4_manual_add (db : Db) (user categoryId : Nat) (start now : Int)
    (hcid : categoryId ≠ 0) :
    ((addManualEntry db user categoryId start now).2 = .error .invalidTime
       ↔ ¬ start < now) ∧
    (¬ start < now →
       addManualEntry db user categoryId start now
         = (db, .error .invalidTime)) ∧
    (start < now → lookupCategory db categoryId = none →
       addManualEntry db user categoryId start now
         = (db, .error .categoryNotFound)) ∧
    (∀ cat, start < now → lookupCategory db categoryId = some cat →
       ∃ e, addManualEntry db user categoryId start now
           = ({ db with logs := db.logs ++ [e],
                        nextLogId := db.nextLogId + 1 },
              .ok e) ∧
         e.startTime = start ∧ e.endTime = some start ∧
         e.duration = some 0 ∧ e.isManual = true ∧
         e.categoryNameSnapshot = cat.name ∧ e.userId = user) := by
  have hc0 : (categoryId == 0) = false := by
    simp [hcid]
  have hnot : ¬ start < now ↔ now ≤ start := not_lt
  refine ⟨?_, ?_, ?_, ?_⟩
  · constructor
    · intro herr
      rw [hnot]
      by_contra ht
      rw [not_le] at ht
      have ht' : ¬ now ≤ start := not_le.mpr ht
      cases hcat : lookupCategory db categoryId with
      | none =>
        rw [addManualEntry_catNone_eq db user categoryId start now hc0 ht' hcat]
          at herr
        exact absurd herr (by simp)
      | some cat =>
        rw [addManualEntry_ok_eq db user categoryId start now cat hc0 ht' hcat]
          at herr
        exact absurd herr (by simp)
    · intro ht
      rw [hnot] at ht
      rw [addManualEntry_invalidTime_eq db user categoryId start now hc0 ht]
  · intro ht
    rw [hnot] at ht
    exact addManualEntry_invalidTime_eq db user categoryId start now hc0 ht
  · intro ht hcat
    exact addManualEntry_catNone_eq db user categoryId start now hc0
      (not_le.mpr ht) hcat
  · intro cat ht hcat
    exact ⟨newManualLog db user categoryId cat.name start,
      addManualEntry_ok_eq db user categoryId start now cat hc0
        (not_le.mpr ht) hcat, rfl, rfl, rfl, rfl, rfl, rfl⟩

theorem C4_manual_add_witness :
    (1 : Nat) ≠ 0 ∧ (500 : Int) < 1000 ∧
    lookupCategory wDb 1 = some wCat1 ∧
    (∃ e, addManualEntry wDb 1 1 500 1000
        = ({ wDb with logs := wDb.logs ++ [e], nextLogId := wDb.nextLogId + 1 },
           .ok e) ∧
      e.endTime = some 500 ∧ e.duration = some 0 ∧ e.isManual = true) ∧
    (addManualEntry wDb 1 1 1000 1000).2 = .error .invalidTime := by
  refine ⟨by decide, by decide, rfl, ?_, ?_⟩
  · obtain ⟨e, heq, hst, het, hdur, hman, hsnap, huid⟩ :=
      (C4_manual_add wDb 1 1 500 1000 (by decide)).2.2.2 wCat1 (by decide) rfl
    exact ⟨e, heq, het, hdur, hman⟩
  · have h := (C4_manual_add wDb 1 1 1000 1000 (by decide)).2.1 (by decide)
    rw [h]

theorem stopSession_none_eq (db : Db) (user : Nat) (now : Int)
    (h : findActiveList db.logs user = none) :
    stopSession db user now = (db, .error .noActiveSession) := by
  unfold stopSession
  rw [h]

theorem stopSession_some_eq (db : Db) (user : Nat) (now : Int) (a : WorkLog)
    (h : findActiveList db.logs user = some a) :
    stopSession db user now
      = ({ db with logs := updateLogList db.logs a.id (closeLog now) },
         .ok (closeLog now a)) := by
  unfold stopSession
  rw [h]

/-- C5: stopSession fails with NoActiveSession when the user has no open
entry, and a failed stop returns before any write, so the ledger is
unchanged; consequently, under the active-session invariant, a second
stop immediately after a successful one fails with NoActiveSession and
again changes nothing. -/
theorem C5_stop_idempotent (db : Db) (user : Nat) (now : Int) :
    (findActiveList db.logs user = none →
       stopSession db user now = (db, .error .noActiveSession)) ∧
    (∀ err, (stopSession db user now).2 = .error err →
       (stopSession db user now).1 = db) ∧
    (db.wf → openCount user db.logs ≤ 1 →
       ∀ db2 lg (now2 : Int), stopSession db user now = (db2, .ok lg) →
         stopSession db2 user now2 = (db2, .error .noActiveSession)) := by
  refine ⟨?_, ?_, ?_⟩
  · intro h
    exact stopSession_none_eq db user now h
  · intro err herr
    cases h : findActiveList db.logs user with
    | none => rw [stopSession_none_eq db user now h]
    | some a =>
      rw [stopSession_some_eq db user now a h] at herr
      exact absurd herr (by simp)
  · intro hwf hinv db2 lg now2 hstop
    cases h : findActiveList db.logs user with
    | none =>
      rw [stopSession_none_eq db user now h] at hstop
      exact absurd (congrArg Prod.snd hstop) (by simp)
    | some a =>
      rw [stopSession_some_eq db user now a h] at hstop
      have h1 : ({ db with logs := updateLogList db.logs a.id (closeLog now) }
          : Db) = db2 := congrArg Prod.fst hstop
      have hdb2 : db2.logs = updateLogList db.logs a.id (closeLog now) := by
        rw [← h1]
      have hclose := openCount_close_active db.logs user a now hwf.1 h
      have hpos : 0 < db.logs.countP (isOpenFor user) :=
        List.countP_pos_iff.mpr
          ⟨a, List.mem_of_find?_eq_some h, List.find?_some h⟩
      have hzero : db2.logs.countP (isOpenFor user) = 0 := by
        rw [hdb2]
        unfold openCount at hinv
        omega
      have hnone2 : findActiveList db2.logs user = none :=
        find?_none_of_openCount_zero db2.logs user hzero
      exact stopSession_none_eq db2 user now2 hnone2

theorem C5_stop_idempotent_witness :
    wDb.wf ∧ openCount 1 wDb.logs ≤ 1 ∧
    stopSession wDb 1 61000 = ((stopSession wDb 1 61000).1,
      Except.ok (closeLog 61000 wOpen)) ∧
    stopSession (stopSession wDb 1 61000).1 1 62000
      = ((stopSession wDb 1 61000).1, .error .noActiveSession) := by
  have hstop : stopSession wDb 1 61000
      = ((stopSession wDb 1 61000).1, Except.ok (closeLog 61000 wOpen)) := by
    rw [stopSession_some_eq wDb 1 61000 wOpen rfl]
  refine ⟨wDb_wf, by decide, hstop, ?_⟩
  exact (C5_stop_idempotent wDb 1 61000).2.2 wDb_wf (by decide)
    (stopSession wDb 1 61000).1 (closeLog 61000 wOpen) 62000 hstop

theorem editEntryCategory_ok_eq (db : Db) (actingId : Nat) (role : Role)
    (logId catId : Nat) (log : WorkLog) (cat : Category)
    (hlog : db.logs.find? (fun e => e.id == logId) = some log)
    (hauth : log.userId = actingId ∨ role = Role.ADMIN)
    (hcat : lookupCategory db catId = some cat) :
    editEntryCategory db actingId role logId catId
      = ({ db with
             logs := updateLogList db.logs logId (applyEdit catId cat.name) },
         .ok (applyEdit catId cat.name log)) := by
  unfold editEntryCategory
  rw [hlog]
  dsimp only
  have hcond : ¬ (log.userId ≠ actingId ∧ role ≠ Role.ADMIN) := by
    rcases hauth with h | h
    · intro hc
      exact hc.1 h
    · intro hc
      exact hc.2 h
  rw [if_neg hcond]
  simp only [hcat]

theorem editEntryCategory_catNone_eq (db : Db) (actingId : Nat) (role : Role)
    (logId catId : Nat) (log : WorkLog)
    (hlog : db.logs.find? (fun e => e.id == logId) = some log)
    (hauth : log.userId = actingId ∨ role = Role.ADMIN)
    (hcat : lookupCategory db catId = none) :
    editEntryCategory db actingId role logId catId
      = (db, .error .categoryNotFound) := by
  unfold editEntryCategory
  rw [hlog]
  dsimp only
  have hcond : ¬ (log.userId ≠ actingId ∧ role ≠ Role.ADMIN) := by
    rcases hauth with h | h
    · intro hc
      exact hc.1 h
    · intro hc
      exact hc.2 h
  rw [if_neg hcond]
  simp only [hcat]

theorem find?_edited_entry (db : Db) (logId catId : Nat) (log : WorkLog)
    (catName : String) (hwf : db.wf)
    (hlog : db.logs.find? (fun e => e.id == logId) = some log) :
    (updateLogList db.logs logId (applyEdit catId catName)).find?
        (fun e => e.id == logId) = some (applyEdit catId catName log) := by
  have hid : log.id = logId := by
    have := List.find?_some hlog
    simpa using this
  have hmem := List.mem_of_find?_eq_some hlog
  have h := find?_updateLogList_self (applyEdit catId catName)
    (fun e => rfl) db.logs hwf.1 log hmem
  rw [hid] at h
  exact h

/-- C7: the PATCH /api/logs/:id edit changes only the entry's categoryId
and categoryNameSnapshot (re-resolved from the new category's current
name) and sets `isEdited = true`; `startTime`, `endTime` and
`durationSeconds` (as well as id, owner and isManual) are unchanged, and
every other ledger row is untouched; when the new category does not
exist the edit fails with CategoryNotFound and the whole database,
entry included, is unmodified. -/
theorem C7_edit_entry (db : Db) (actingId : Nat) (role : Role)
    (logId catId : Nat) (log : WorkLog) (hwf : db.wf)
    (hlog : db.logs.find? (fun e => e.id == logId) = some log)
    (hauth : log.userId = actingId ∨ role = Role.ADMIN) :
    (∀ cat, lookupCategory db catId = some cat →
       ∃ e2, (editEntryCategory db actingId role logId catId).2 = .ok e2 ∧
         e2.categoryId = some catId ∧ e2.categoryNameSnapshot = cat.name ∧
         e2.isEdited = true ∧
         e2.startTime = log.startTime ∧ e2.endTime = log.endTime ∧
         e2.duration = log.duration ∧ e2.id = log.id ∧
         e2.userId = log.userId ∧ e2.isManual = log.isManual ∧
         (editEntryCategory db actingId role logId catId).1.logs.find?
             (fun e => e.id == logId) = some e2 ∧
         (∀ x ∈ db.logs, x.id ≠ logId →
            x ∈ (editEntryCategory db actingId role logId catId).1.logs)) ∧
    (lookupCategory db catId = none →
       editEntryCategory db actingId role logId catId
         = (db, .error .categoryNotFound)) := by
  constructor
  · intro cat hcat
    have heq := editEntryCategory_ok_eq db actingId role logId catId log cat
      hlog hauth hcat
    refine ⟨applyEdit catId cat.name log, ?_, rfl, rfl, rfl, rfl, rfl, rfl,
      rfl, rfl, rfl, ?_, ?_⟩
    · rw [heq]
    · rw [heq]
      exact find?_edited_entry db logId catId log cat.name hwf hlog
    · intro x hx hne
      rw [heq]
      exact mem_updateLogList_of_ne db.logs logId
        (applyEdit catId cat.name) x hx hne
  · intro hcat
    exact editEntryCategory_catNone_eq db actingId role logId catId log
      hlog hauth hcat

theorem C7_edit_entry_witness :
    wDb.wf ∧ wDb.logs.find? (fun e => e.id == 1) = some wOpen ∧
    wOpen.userId = 1 ∧ lookupCategory wDb 2 = some wCat2 ∧
    ∃ e2, (editEntryCategory wDb 1 Role.USER 1 2).2 = .ok e2 ∧
      e2.categoryNameSnapshot = "Email" ∧ e2.isEdited = true ∧
      e2.startTime = wOpen.startTime ∧ e2.endTime = wOpen.endTime ∧
      e2.duration = wOpen.duration := by
  refine ⟨wDb_wf, rfl, rfl, rfl, ?_⟩
  obtain ⟨e2, hok, hcid, hsnap, hed, hst, het, hdur, hrest⟩ :=
    (C7_edit_entry wDb 1 Role.USER 1 2 wOpen wDb_wf rfl (Or.inl rfl)).1
      wCat2 rfl
  exact ⟨e2, hok, by rw [hsnap]; rfl, hed, hst, het, hdur⟩

/-- C10: the edit is permitted on the currently-open entry: for a found
entry with `endTime == null` owned by the caller and an existing target
category, the PATCH succeeds, updates the category fields and the
isEdited flag, and the stored entry remains open — its `endTime` is
still null afterwards. -/
theorem C10_edit_open_entry (db : Db) (actingId : Nat) (role : Role)
    (logId catId : Nat) (log : WorkLog) (cat : Category) (hwf : db.wf)
    (hlog : db.logs.find? (fun e => e.id == logId) = some log)
    (hown : log.userId = actingId)
    (hopen : log.endTime = none)
    (hcat : lookupCategory db catId = some cat) :
    ∃ e2, (editEntryCategory db actingId role logId catId).2 = .ok e2 ∧
      e2.endTime = none ∧ e2.categoryId = some catId ∧
      e2.categoryNameSnapshot = cat.name ∧ e2.isEdited = true ∧
      (editEntryCategory db actingId role logId catId).1.logs.find?
          (fun e => e.id == logId) = some e2 := by
  have heq := editEntryCategory_ok_eq db actingId role logId catId log cat
    hlog (Or.inl hown) hcat
  refine ⟨applyEdit catId cat.name log, ?_, ?_, rfl, rfl, rfl, ?_⟩
  · rw [heq]
  · show log.endTime = none
    exact hopen
  · rw [heq]
    exact find?_edited_entry db logId catId log cat.name hwf hlog

theorem C10_edit_open_entry_witness :
    wDb.wf ∧ wDb.logs.find? (fun e => e.id == 1) = some wOpen ∧
    wOpen.userId = 1 ∧ wOpen.endTime = none ∧
    lookupCategory wDb 2 = some wCat2 ∧
    ∃ e2, (editEntryCategory wDb 1 Role.ADMIN 1 2).2 = .ok e2 ∧
      e2.endTime = none ∧ e2.categoryNameSnapshot = "Email" ∧
      e2.isEdited = true := by
  refine ⟨wDb_wf, rfl, rfl, rfl, rfl, ?_⟩
  obtain ⟨e2, hok, het, hcid, hsnap, hed, hfind⟩ :=
    C10_edit_open_entry wDb 1 Role.ADMIN 1 2 wOpen wCat2 wDb_wf rfl rfl
      rfl rfl
  exact ⟨e2, hok, het, by rw [hsnap]; rfl, hed⟩

theorem switchSession_missing_eq (db : Db) (user categoryId : Nat)
    (now : Int) (hc : (categoryId == 0) = true) :
    switchSession db user categoryId now = (db, .error .missingParams) := by
  unfold switchSession
  rw [if_pos hc]

theorem switchSession_catNone_eq (db : Db) (user categoryId : Nat)
    (now : Int) (hc0 : (categoryId == 0) = false)
    (hcat : lookupCategory db categoryId = none) :
    switchSession db user categoryId now = (db, .error .categoryNotFound) := by
  unfold switchSession
  rw [hc0]
  simp only [Bool.false_eq_true, if_false, hcat]

theorem addManualEntry_missing_eq (db : Db) (user categoryId : Nat)
    (start now : Int) (hc : (categoryId == 0) = true) :
    addManualEntry db user categoryId start now
      = (db, .error .missingParams) := by
  unfold addManualEntry
  rw [if_pos hc]

theorem editEntryCategory_notFound_eq (db : Db) (actingId : Nat)
    (role : Role) (logId catId : Nat)
    (hlog : db.logs.find? (fun e => e.id == logId) = none) :
    editEntryCategory db actingId role logId catId
      = (db, .error .notFound) := by
  unfold editEntryCategory
  rw [hlog]

theorem editEntryCategory_forbidden_eq (db : Db) (actingId : Nat)
    (role : Role) (logId catId : Nat) (log : WorkLog)
    (hlog : db.logs.find? (fun e => e.id == logId) = some log)
    (hforb : log.userId ≠ actingId ∧ role ≠ Role.ADMIN) :
    editEntryCategory db actingId role logId catId
      = (db, .error .forbidden) := by
  unfold editEntryCategory
  rw [hlog]
  dsimp only
  rw [if_pos hforb]

theorem openCount_updateLogList_applyEdit (l : List WorkLog) (u i catId : Nat)
    (s : String) :
    (updateLogList l i (applyEdit catId s)).countP (isOpenFor u)
      = l.countP (isOpenFor u) := by
  unfold updateLogList
  exact countP_map_congr_upd (isOpenFor u) (fun e => e.id == i)
    (applyEdit catId s) l (fun e _ _ => rfl)

/-- C1: for every user, at most one ledger entry is open
(`endTime == null`) at a time, and every engine operation — switch,
stop, manual-add, edit, delete — preserves this active-session invariant
on a well-formed store; moreover manual-add only ever creates an
already-closed entry (`endTime = startTime`), and a successful switch
closes the previously open entry in the same transaction that appends
the new open one. -/
theorem C1_active_session_invariant (db : Db) (hwf : db.wf)
    (hinv : activeInv db) :
    (∀ (user categoryId : Nat) (now : Int),
       activeInv (switchSession db user categoryId now).1) ∧
    (∀ (user : Nat) (now : Int), activeInv (stopSession db user now).1) ∧
    (∀ (user categoryId : Nat) (start now : Int),
       activeInv (addManualEntry db user categoryId start now).1) ∧
    (∀ (actingId : Nat) (role : Role) (logId categoryId : Nat),
       activeInv (editEntryCategory db actingId role logId categoryId).1) ∧
    (∀ (actingId : Nat) (role : Role) (logId : Nat),
       activeInv (deleteEntry db actingId role logId).1) ∧
    (∀ (user categoryId : Nat) (start now : Int) (e : WorkLog),
       (addManualEntry db user categoryId start now).2 = .ok e →
         e.endTime = some e.startTime ∧ e.startTime = start) ∧
    (∀ (user categoryId : Nat) (now : Int) (a nl : WorkLog),
       findActiveList db.logs user = some a →
       (switchSession db user categoryId now).2 = .ok nl →
       (switchSession db user categoryId now).1.logs.find?
           (fun e => e.id == a.id) = some (closeLog now a)) := by
  refine ⟨?_, ?_, ?_, ?_, ?_, ?_, ?_⟩
  · intro user categoryId now
    by_cases hc : (categoryId == 0) = true
    · rw [switchSession_missing_eq db user categoryId now hc]
      exact hinv
    · have hc0 : (categoryId == 0) = false := by
        cases h : categoryId == 0
        · rfl
        · exact absurd h hc
      cases hcat : lookupCategory db categoryId with
      | none =>
        rw [switchSession_catNone_eq db user categoryId now hc0 hcat]
        exact hinv
      | some cat =>
        rw [switchSession_ok_eq db user categoryId now cat hc0 hcat]
        unfold activeInv openCount
        dsimp only
        intro u
        rw [List.countP_append]
        cases hfa : findActiveList db.logs user with
        | some a =>
          dsimp only
          by_cases hu : u = user
          · subst hu
            have hclose := openCount_close_active db.logs u a now hwf.1 hfa
            have hsing : List.countP (isOpenFor u)
                [newOpenLog db u categoryId cat.name now] = 1 := by
              simp [List.countP_cons, isOpenFor, newOpenLog]
            have hle := hinv u
            unfold openCount at hle
            omega
          · have hother := openCount_close_other db.logs user u a now
              hwf.1 hfa hu
            have huser : (user == u) = false := by
              simp
              exact fun hcontra => hu hcontra.symm
            have hsing : List.countP (isOpenFor u)
                [newOpenLog db user categoryId cat.name now] = 0 := by
              simp [List.countP_cons, isOpenFor, newOpenLog, huser]
            have hle := hinv u
            unfold openCount at hle
            omega
        | none =>
          dsimp only
          by_cases hu : u = user
          · subst hu
            have hzero := openCount_eq_zero_of_find?_none db.logs u hfa
            have hsing : List.countP (isOpenFor u)
                [newOpenLog db u categoryId cat.name now] = 1 := by
              simp [List.countP_cons, isOpenFor, newOpenLog]
            omega
          · have huser : (user == u) = false := by
              simp
              exact fun hcontra => hu hcontra.symm
            have hsing : List.countP (isOpenFor u)
                [newOpenLog db user categoryId cat.name now] = 0 := by
              simp [List.countP_cons, isOpenFor, newOpenLog, huser]
            have hle := hinv u
            unfold openCount at hle
            omega
  · intro user now
    cases hfa : findActiveList db.logs user with
    | none =>
      rw [stopSession_none_eq db user now hfa]
      exact hinv
    | some a =>
      rw [stopSession_some_eq db user now a hfa]
      unfold activeInv openCount
      dsimp only
      intro u
      by_cases hu : u = user
      · subst hu
        have hclose := openCount_close_active db.logs u a now hwf.1 hfa
        have hle := hinv u
        unfold openCount at hle
        omega
      · have hother := openCount_close_other db.logs user u a now
          hwf.1 hfa hu
        have hle := hinv u
        unfold openCount at hle
        omega
  · intro user categoryId start now
    by_cases hc : (categoryId == 0) = true
    · rw [addManualEntry_missing_eq db user categoryId start now hc]
      exact hinv
    · have hc0 : (categoryId == 0) = false := by
        cases h : categoryId == 0
        · rfl
        · exact absurd h hc
      by_cases ht : now ≤ start
      · rw [addManualEntry_invalidTime_eq db user categoryId start now hc0 ht]
        exact hinv
      · cases hcat : lookupCategory db categoryId with
        | none =>
          rw [addManualEntry_catNone_eq db user categoryId start now hc0
            ht hcat]
          exact hinv
        | some cat =>
          rw [addManualEntry_ok_eq db user categoryId start now cat hc0
            ht hcat]
          unfold activeInv openCount
          dsimp only
          intro u
          rw [List.countP_append]
          have hsing : List.countP (isOpenFor u)
              [newManualLog db user categoryId cat.name start] = 0 := by
            simp [List.countP_cons, isOpenFor, newManualLog]
          have hle := hinv u
          unfold openCount at hle
          omega
  · intro actingId role logId categoryId
    cases hlog : db.logs.find? (fun e => e.id == logId) with
    | none =>
      rw [editEntryCategory_notFound_eq db actingId role logId categoryId hlog]
      exact hinv
    | some log =>
      by_cases hforb : log.userId ≠ actingId ∧ role ≠ Role.ADMIN
      · rw [editEntryCategory_forbidden_eq db actingId role logId categoryId
          log hlog hforb]
        exact hinv
      · have hauth : log.userId = actingId ∨ role = Role.ADMIN := by
          rcases not_and_or.mp hforb with h | h
          · exact Or.inl (not_not.mp h)
          · exact Or.inr (not_not.mp h)
        cases hcat : lookupCategory db categoryId with
        | none =>
          rw [editEntryCategory_catNone_eq db actingId role logId categoryId
            log hlog hauth hcat]
          exact hinv
        | some cat =>
          rw [editEntryCategory_ok_eq db actingId role logId categoryId
            log cat hlog hauth hcat]
          unfold activeInv openCount
          dsimp only
          intro u
          rw [openCount_updateLogList_applyEdit]
          have hle := hinv u
          unfold openCount at hle
          exact hle
  · intro actingId role logId
    cases hlog : db.logs.find? (fun e => e.id == logId) with
    | none =>
      unfold deleteEntry
      rw [hlog]
      exact hinv
    | some log =>
      unfold deleteEntry
      rw [hlog]
      dsimp only
      split_ifs with hforb
      · exact hinv
      · unfold activeInv openCount
        dsimp only
        intro u
        have hsub := List.Sublist.countP_le (isOpenFor u)
          (@List.filter_sublist WorkLog (fun e => !(e.id == logId)) db.logs)
        have hle := hinv u
        unfold openCount at hle
        omega
  · intro user categoryId start now e hok
    by_cases hc : (categoryId == 0) = true
    · rw [addManualEntry_missing_eq db user categoryId start now hc] at hok
      exact absurd hok (by simp)
    · have hc0 : (categoryId == 0) = false := by
        cases h : categoryId == 0
        · rfl
        · exact absurd h hc
      by_cases ht : now ≤ start
      · rw [addManualEntry_invalidTime_eq db user categoryId start now
          hc0 ht] at hok
        exact absurd hok (by simp)
      · cases hcat : lookupCategory db categoryId with
        | none =>
          rw [addManualEntry_catNone_eq db user categoryId start now hc0
            ht hcat] at hok
          exact absurd hok (by simp)
        | some cat =>
          rw [addManualEntry_ok_eq db user categoryId start now cat hc0
            ht hcat] at hok
          have he : newManualLog db user categoryId cat.name start = e := by
            simpa using hok
          rw [← he]
          exact ⟨rfl, rfl⟩
  · intro user categoryId now a nl hfa hok
    by_cases hc : (categoryId == 0) = true
    · rw [switchSession_missing_eq db user categoryId now hc] at hok
      exact absurd hok (by simp)
    · have hc0 : (categoryId == 0) = false := by
        cases h : categoryId == 0
        · rfl
        · exact absurd h hc
      cases hcat : lookupCategory db categoryId with
      | none =>
        rw [switchSession_catNone_eq db user categoryId now hc0 hcat] at hok
        exact absurd hok (by simp)
      | some cat =>
        rw [switchSession_ok_eq db user categoryId now cat hc0 hcat]
        dsimp only
        rw [hfa]
        dsimp only
        have hmem := List.mem_of_find?_eq_some hfa
        exact find?_append_some (find?_updateLogList_self (closeLog now)
          (fun e => rfl) db.logs hwf.1 a hmem)

theorem wDb_activeInv : activeInv wDb := by
  intro u
  unfold openCount wDb
  simp only [List.countP_cons, List.countP_nil]
  split <;> omega

theorem C1_active_session_invariant_witness :
    wDb.wf ∧ activeInv wDb ∧
    activeInv (switchSession wDb 1 2 61000).1 ∧
    activeInv (stopSession wDb 1 61000).1 ∧
    activeInv (addManualEntry wDb 1 1 500 61000).1 ∧
    activeInv (editEntryCategory wDb 1 Role.USER 1 2).1 ∧
    activeInv (deleteEntry wDb 1 Role.USER 1).1 := by
  have h := C1_active_session_invariant wDb wDb_wf wDb_activeInv
  exact ⟨wDb_wf, wDb_activeInv, h.1 1 2 61000, h.2.1 1 61000,
    h.2.2.1 1 1 500 61000, h.2.2.2.1 1 Role.USER 1 2,
    h.2.2.2.2.1 1 Role.USER 1⟩
